import Mathlib

/-!
Shallow embedding of `src/context.ts` (the `@iyuo/context` package): the
`Context<TContext>` wrapper class, its `IPlugin`/`IScope` plugin shapes and the
`pluginize` helper.

JavaScript arrays are mutable reference values, and the wrapper's `_use` field
(the staged-argument buffer) is such an array: `useArray` installs a caller's
array by reference, the clearing statement `this._use = []` installs a fresh
empty array, and `scope` hands the live array to the plugin.  The embedding
therefore threads an explicit store of arrays: an array reference is an index
(`Ref`) into a `Store`, and every stateful method takes and returns the store.

Plugins of shape `IPlugin` are invoked with `plugin.apply(this._context, args)`,
which spreads the argument array into positional parameters, so such a plugin
never sees the wrapper or the live array; it is embedded as a pure, possibly
throwing function of the receiver value and the argument list.  A thrown
exception is an `Except.error`; every method returns the wrapper state and the
store alongside the `Except`, because in JavaScript the wrapper survives an
exception with whatever state it had at the throw point.
-/

namespace ContextTs

variable {α β ε ρ υ : Type}

/-- A JavaScript array reference: an index into the store. -/
abbrev Ref := Nat

/-- The store of JavaScript arrays holding staged-argument buffers. -/
abbrev Store (υ : Type) := List (List υ)

/-- Content of the array behind a reference (a dangling reference reads `[]`). -/
def readArr (s : Store υ) (r : Ref) : List υ :=
  s.getD r []

/-- Overwrite the content of the array behind a reference, in place. -/
def writeArr (s : Store υ) (r : Ref) (xs : List υ) : Store υ :=
  s.set r xs

/-- Allocate a fresh array (the `[]` literal in the source) with content `xs`. -/
def alloc (s : Store υ) (xs : List υ) : Ref × Store υ :=
  (s.length, s ++ [xs])

/-- `IPlugin<TContext, TResult>`: `(this: TContext, ...use: any[]) => TResult`.
Invoked via `apply`, the argument array is spread, so the plugin receives the
receiver value and the list of arguments and can only return or throw. -/
abbrev IPlugin (α υ ε ρ : Type) := α → List υ → Except ε ρ

/-- The `Context<TContext>` class: the wrapped value `_context` and the staged
argument array `_use` (held by reference into the store). -/
structure Context (α : Type) where
  _context : α
  _use : Ref
deriving DecidableEq

/-- `IScope<TContext, TResult>`: `(this: Context<TContext>, context, use) => TResult`.
The plugin receives the wrapper itself as receiver, the context value and the
live staged array (by reference); it may mutate arrays in the store and the
wrapper (through `this`), so it returns a new wrapper state and store. -/
abbrev IScope (α υ ε ρ : Type) :=
  Context α → α → Ref → Store υ → Except ε ρ × Context α × Store υ

/-- `new Context(context)`: `this._use = []` allocates a fresh empty array,
`this._context = context`.  (The `init` guard against a missing `new` keyword
is unreachable in the embedding: construction always yields a bound instance.) -/
def Context.new (v : α) (s : Store υ) : Context α × Store υ :=
  let (r, s') := alloc s []
  (Context.mk v r, s')

/-- `context()`: returns `this._context`. -/
def Context.context (c : Context α) : α :=
  c._context

/-- `change(context)`: `this._context = context; return this`. -/
def Context.change (c : Context α) (v : α) : Context α :=
  Context.mk v c._use

/-- `use(...args)`: `this._use.push(...args); return this` — appends to the
array behind `_use`, in place. -/
def Context.use (c : Context α) (args : List υ) (s : Store υ) :
    Context α × Store υ :=
  (c, writeArr s c._use (readArr s c._use ++ args))

/-- `useArray(use)`: `this._use = use; return this` — installs the given array
by reference (aliasing, no copy). -/
def Context.useArray (c : Context α) (r : Ref) : Context α :=
  Context.mk c._context r

/-- The argument-resolution line shared by `task`/`make`/`map`/`scope`:
`let args = use.length === 0 ? this._use : use`. -/
def resolveArgs (c : Context α) (use : List υ) (s : Store υ) : List υ :=
  if use.length = 0 then readArr s c._use else use

/-- The loop body of `tasks`: invoke each plugin in order with the context and
the staged arguments; a thrown error stops the loop and propagates.  (An
`IPlugin` has no access to the wrapper, so `this._use` cannot change during
the loop and its content is read once here.) -/
def tasksLoop (ctx : α) (args : List υ) : List (IPlugin α υ ε Unit) → Except ε Unit
  | [] => .ok ()
  | p :: ps =>
    match p ctx args with
    | .error e => .error e
    | .ok _ => tasksLoop ctx args ps

/-- `tasks(...plugins)`: for each plugin, `plugin.apply(this._context, this._use)`;
afterwards `this._use = []` (a fresh array); returns `this`.  The variadic
parameter list consists of the plugins only. -/
def Context.tasks (c : Context α) (plugins : List (IPlugin α υ ε Unit))
    (s : Store υ) : Except ε Unit × Context α × Store υ :=
  match tasksLoop c._context (readArr s c._use) plugins with
  | .error e => (.error e, c, s)
  | .ok _ =>
    let (r, s') := alloc s []
    (.ok (), Context.mk c._context r, s')

/-- `task(plugin, ...use)`: resolve the arguments, `plugin.apply(this._context,
args)`, return `this`.  There is no clearing statement in this method. -/
def Context.task (c : Context α) (plugin : IPlugin α υ ε Unit) (use : List υ)
    (s : Store υ) : Except ε Unit × Context α × Store υ :=
  let args := resolveArgs c use s
  match plugin c._context args with
  | .error e => (.error e, c, s)
  | .ok _ => (.ok (), c, s)

/-- `make(plugin, ...use)`: resolve the arguments, invoke the plugin, then
`this._use = []` (a fresh array) and return the plugin's result. -/
def Context.make (c : Context α) (plugin : IPlugin α υ ε ρ) (use : List υ)
    (s : Store υ) : Except ε ρ × Context α × Store υ :=
  let args := resolveArgs c use s
  match plugin c._context args with
  | .error e => (.error e, c, s)
  | .ok result =>
    let (r, s') := alloc s []
    (.ok result, Context.mk c._context r, s')

/-- `map(plugin, ...use)`: resolve the arguments, invoke the plugin, construct
`new Context(result)` (which allocates its own fresh `_use`), then
`this._use = []` (another fresh array) and return the new wrapper. -/
def Context.map (c : Context α) (plugin : IPlugin α υ ε β) (use : List υ)
    (s : Store υ) : Except ε (Context β) × Context α × Store υ :=
  let args := resolveArgs c use s
  match plugin c._context args with
  | .error e => (.error e, c, s)
  | .ok value =>
    let (newCtx, s') := Context.new value s
    let (r, s'') := alloc s' []
    (.ok newCtx, Context.mk c._context r, s'')

/-- `scope(plugin, ...use)`: the resolved `args` value is computed but never
used by the source; the plugin is invoked as `plugin.call(this, this._context,
this._use)` — receiver is the wrapper itself, the second positional argument is
the live `_use` reference — and its result is returned with no clearing. -/
def Context.scope (c : Context α) (plugin : IScope α υ ε ρ) (use : List υ)
    (s : Store υ) : Except ε ρ × Context α × Store υ :=
  let _args := resolveArgs c use s
  plugin c c._context c._use s

/-- `pluginize(plugin)`: returns a factory; the factory, given fixed `args`,
returns a plugin `function() { return plugin.apply(this, args) }` whose body
ignores its own call-time arguments. -/
def pluginize (plugin : IPlugin α υ ε ρ) : List υ → IPlugin α υ ε ρ :=
  fun args => fun r _use => plugin r args

/-- Follows the spec's words for `runAll(plugins, explicitArgs?)` (compare with
`Context.tasks`, translated from the source): resolve the argument list as
explicit-overrides-staged, invoke every plugin in the batch with it, then clear
the staged arguments. -/
def runAllSpec (c : Context α) (plugins : List (IPlugin α υ ε Unit))
    (explicitArgs : List υ) (s : Store υ) : Except ε Unit × Context α × Store υ :=
  let args := if explicitArgs.length = 0 then readArr s c._use else explicitArgs
  match tasksLoop c._context args plugins with
  | .error e => (.error e, c, s)
  | .ok _ =>
    let (r, s') := alloc s []
    (.ok (), Context.mk c._context r, s')

/-! ### Helper lemmas about the store and the batch loop -/

theorem readArr_append_add (s t : Store υ) (i : Nat) :
    readArr (s ++ t) (s.length + i) = readArr t i := by
  unfold readArr
  rw [List.getD_eq_getElem?_getD, List.getD_eq_getElem?_getD,
    List.getElem?_append_right (Nat.le_add_right _ _), Nat.add_sub_cancel_left]

theorem readArr_append_of_lt (s t : Store υ) (a : Ref) (h : a < s.length) :
    readArr (s ++ t) a = readArr s a := by
  unfold readArr
  rw [List.getD_eq_getElem?_getD, List.getD_eq_getElem?_getD,
    List.getElem?_append_left h]

theorem readArr_alloc_self (s : Store υ) (xs : List υ) :
    readArr (s ++ [xs]) s.length = xs :=
  readArr_append_add s [xs] 0

theorem tasksLoop_ok (ctx : α) (args : List υ)
    (ps : List (IPlugin α υ ε Unit))
    (h : ∀ p ∈ ps, p ctx args = .ok ()) :
    tasksLoop ctx args ps = .ok () := by
  induction ps with
  | nil => rfl
  | cons p ps ih =>
    have hp : p ctx args = .ok () := h p (List.mem_cons_self _ _)
    simp only [tasksLoop, hp]
    exact ih fun q hq => h q (List.mem_cons_of_mem _ hq)

theorem tasksLoop_append_error (ctx : α) (args : List υ)
    (ps qs : List (IPlugin α υ ε Unit)) (p : IPlugin α υ ε Unit) (e : ε)
    (hps : ∀ q ∈ ps, q ctx args = .ok ())
    (hp : p ctx args = .error e) :
    tasksLoop ctx args (ps ++ p :: qs) = .error e := by
  induction ps with
  | nil => simp only [List.nil_append, tasksLoop, hp]
  | cons q ps ih =>
    have hq : q ctx args = .ok () := hps q (List.mem_cons_self _ _)
    simp only [List.cons_append, tasksLoop, hq]
    exact ih fun r hr => hps r (List.mem_cons_of_mem _ hr)

/-! ### Claims -/

/-- Claim C1, counterexample: a wrapper with staged arguments `[1]` runs a no-op
plugin through `task` (spec: `run`) with no explicit arguments; the call returns
normally, yet the staged arguments afterwards are still `[1]`, not empty. -/
theorem task_counterexample_staged_not_cleared :
    ((Context.mk (0 : Nat) 0).task (fun _ _ => (.ok () : Except Unit Unit))
        ([] : List Nat) [[1]]).1 = .ok () ∧
    readArr (((Context.mk (0 : Nat) 0).task (fun _ _ => (.ok () : Except Unit Unit))
        ([] : List Nat) [[1]]).2.2)
      (((Context.mk (0 : Nat) 0).task (fun _ _ => (.ok () : Except Unit Unit))
        ([] : List Nat) [[1]]).2.1)._use = [1] ∧
    ([1] : List Nat) ≠ [] := by
  refine ⟨rfl, rfl, by decide⟩

/-- Claim C1 (amended): `task` (spec: `run`) never touches the wrapper state:
after the call — returning normally or with an error, with or without explicit
arguments — the wrapper and the store, in particular the staged arguments, are
exactly as before; `task` does not clear `stagedArgs`. -/
theorem task_leaves_state_unchanged (c : Context α) (p : IPlugin α υ ε Unit)
    (use : List υ) (s : Store υ) :
    (c.task p use s).2.1 = c ∧ (c.task p use s).2.2 = s := by
  unfold Context.task
  cases hp : p c._context (resolveArgs c use s) <;> simp [hp]

/-- Claim C2, counterexample: `tasks` (spec: `runAll`) takes only a plugin
sequence and always invokes each plugin with the current staged arguments; a
probe plugin that throws its own received argument list reports `[1, 2]` (the
staged list), whereas the spec-modelled `runAllSpec` at the claimed explicit
input `[9]` would hand the plugin `[9]`. -/
theorem tasks_counterexample_no_explicit_args :
    ((Context.mk (0 : Nat) 0).tasks
        [fun _ args => (.error args : Except (List Nat) Unit)] [[1, 2]]).1
      = .error [1, 2] ∧
    (runAllSpec (Context.mk (0 : Nat) 0)
        [fun _ args => (.error args : Except (List Nat) Unit)] [9] [[1, 2]]).1
      = .error [9] :=
  ⟨rfl, rfl⟩

/-- Claim C2 (amended): `tasks` (spec: `runAll`) accepts only the plugin
sequence — there is no explicit-argument parameter — and invokes every plugin
with the current staged arguments: whenever each plugin in the batch accepts
the staged arguments, the whole call returns normally and installs a fresh
empty staged array. -/
theorem tasks_runs_all_on_staged_and_clears (c : Context α) (s : Store υ)
    (plugins : List (IPlugin α υ ε Unit))
    (h : ∀ p ∈ plugins, p c._context (readArr s c._use) = .ok ()) :
    c.tasks plugins s = (.ok (), Context.mk c._context s.length, s ++ [[]]) ∧
    readArr (s ++ [[]]) s.length = [] := by
  constructor
  · unfold Context.tasks
    rw [tasksLoop_ok c._context (readArr s c._use) plugins h]
    rfl
  · exact readArr_alloc_self s []

/-- Witness for claim C2's amended theorem at a concrete batch. -/
theorem tasks_runs_all_witness :
    (Context.mk (0 : Nat) 0).tasks [fun _ _ => (.ok () : Except Unit Unit)] [[1, 2]]
      = (.ok (), Context.mk 0 1, [[1, 2], []]) :=
  (tasks_runs_all_on_staged_and_clears (Context.mk (0 : Nat) 0) [[1, 2]]
    [fun _ _ => (.ok () : Except Unit Unit)]
    (fun p hp => by rw [List.mem_singleton] at hp; subst hp; rfl)).1

/-- Claim C3: `scope` (spec: `withScope`) invokes the plugin with the wrapper
itself as receiver and exactly two positional arguments — the current value and
the wrapper's own live staged-array reference, whatever explicit arguments were
supplied — and returns exactly the plugin's outcome: the wrapper and the staged
array afterwards are whatever the plugin left, with no clearing by `scope`. -/
theorem scope_passes_live_staged_and_never_clears (c : Context α)
    (p : IScope α υ ε ρ) (use : List υ) (s : Store υ) :
    c.scope p use s = p c c._context c._use s :=
  rfl

/-- Claim C4: if in a `tasks` (spec: `runAll`) batch every plugin before `p`
accepts the staged arguments and `p` throws `e`, the whole call throws exactly
`e`, the outcome does not depend on the plugins after `p` (they are never
invoked), and the wrapper and store — in particular the staged arguments — are
left exactly as they were: the clear happens only on normal completion. -/
theorem tasks_error_propagates_and_stops (c : Context α) (s : Store υ)
    (ps qs : List (IPlugin α υ ε Unit)) (p : IPlugin α υ ε Unit) (e : ε)
    (hps : ∀ q ∈ ps, q c._context (readArr s c._use) = .ok ())
    (hp : p c._context (readArr s c._use) = .error e) :
    c.tasks (ps ++ p :: qs) s = (.error e, c, s) := by
  unfold Context.tasks
  rw [tasksLoop_append_error c._context (readArr s c._use) ps qs p e hps hp]

/-- Witness for claim C4's theorem: the second plugin throws `7`; the third
(which would throw `8`) is never reached, and the staged array stays `[1, 2]`. -/
theorem tasks_error_witness :
    (Context.mk (0 : Nat) 0).tasks
      [fun _ _ => (.ok () : Except Nat Unit),
       fun _ _ => (.error 7 : Except Nat Unit),
       fun _ _ => (.error 8 : Except Nat Unit)] [[1, 2]]
      = (.error 7, Context.mk 0 0, [[1, 2]]) :=
  tasks_error_propagates_and_stops (Context.mk (0 : Nat) 0) [[1, 2]]
    [fun _ _ => (.ok () : Except Nat Unit)] [fun _ _ => (.error 8 : Except Nat Unit)]
    (fun _ _ => (.error 7 : Except Nat Unit)) 7
    (fun q hq => by rw [List.mem_singleton] at hq; subst hq; rfl) rfl

/-- Claim C5: `task`/`make`/`map` (spec: `run`/`apply`/`transform`) all resolve
the argument list the same way — the explicit list when it is non-empty, the
current staged arguments when it is empty — and the plugin is applied to
exactly that list; in particular, with staged `[1, 2]` and explicit `[9]` the
plugin receives `[9]`. -/
theorem task_make_map_argument_resolution (c : Context α) (s : Store υ)
    (use : List υ) (pt : IPlugin α υ ε Unit) (pm : IPlugin α υ ε ρ)
    (pp : IPlugin α υ ε β) :
    (c.task pt use s).1
      = pt c._context (if use.length = 0 then readArr s c._use else use) ∧
    (c.make pm use s).1
      = pm c._context (if use.length = 0 then readArr s c._use else use) ∧
    (c.map pp use s).1
      = Except.map (fun v => Context.mk v s.length)
          (pp c._context (if use.length = 0 then readArr s c._use else use)) ∧
    ((Context.mk (0 : Nat) 0).make (fun _ a => (.ok a : Except Unit (List Nat)))
        [9] [[1, 2]]).1 = .ok [9] := by
  refine ⟨?_, ?_, ?_, rfl⟩
  · unfold Context.task resolveArgs
    cases hp : pt c._context (if use.length = 0 then readArr s c._use else use) <;>
      simp [hp]
  · unfold Context.make resolveArgs
    cases hp : pm c._context (if use.length = 0 then readArr s c._use else use) <;>
      simp [hp]
  · unfold Context.map resolveArgs
    cases hp : pp c._context (if use.length = 0 then readArr s c._use else use) <;>
      simp [hp, Except.map, Context.new, alloc]

/-- Claim C6: when the plugin returns `v` normally, `map` (spec: `transform`)
returns a new wrapper — observably distinct from the original, since its staged
array is a different, freshly allocated reference — whose value (spec: `read`)
is `v`; the original wrapper keeps its value and only has its staged arguments
replaced by a fresh empty array. -/
theorem map_returns_fresh_wrapper (c : Context α) (s : Store υ) (use : List υ)
    (p : IPlugin α υ ε β) (v : β)
    (h : p c._context (resolveArgs c use s) = .ok v) :
    c.map p use s
      = (.ok (Context.mk v s.length), Context.mk c._context (s.length + 1),
         s ++ [[], []]) ∧
    (Context.mk v s.length).context = v ∧
    (Context.mk v s.length)._use ≠ (Context.mk c._context (s.length + 1))._use ∧
    readArr (s ++ [[], []]) (s.length + 1) = [] := by
  refine ⟨?_, rfl, ?_, ?_⟩
  · simp [Context.map, h, Context.new, alloc]
  · show s.length ≠ s.length + 1
    omega
  · rw [readArr_append_add s [[], []] 1]
    rfl

/-- Witness for claim C6's theorem: mapping `10` through an increment plugin. -/
theorem map_returns_fresh_wrapper_witness :
    (Context.mk (10 : Nat) 0).map (fun n _ => (.ok (n + 1) : Except Unit Nat))
        ([] : List Nat) [[]]
      = (.ok (Context.mk 11 1), Context.mk 10 2, [[], [], []]) :=
  (map_returns_fresh_wrapper (Context.mk (10 : Nat) 0) [[]] []
    (fun n _ => (.ok (n + 1) : Except Unit Nat)) 11 rfl).1

/-- Claim C7: when the plugin throws, `make` and `map` (spec: `apply` and
`transform`) propagate the error unchanged and leave the wrapper and the store
— in particular the staged arguments — untouched: the clearing step runs only
after the plugin returns normally. -/
theorem make_map_error_keeps_staged (c : Context α) (s : Store υ) (use : List υ)
    (p : IPlugin α υ ε ρ) (q : IPlugin α υ ε β) (e e' : ε)
    (hp : p c._context (resolveArgs c use s) = .error e)
    (hq : q c._context (resolveArgs c use s) = .error e') :
    c.make p use s = (.error e, c, s) ∧ c.map q use s = (.error e', c, s) := by
  constructor
  · simp [Context.make, hp]
  · simp [Context.map, hq]

/-- Witness for claim C7's theorem: throwing plugins under staged `[1]`. -/
theorem make_map_error_witness :
    (Context.mk (0 : Nat) 0).make (fun _ _ => (.error 5 : Except Nat Nat))
        ([] : List Nat) [[1]] = (.error 5, Context.mk 0 0, [[1]]) ∧
    (Context.mk (0 : Nat) 0).map (fun _ _ => (.error 6 : Except Nat Nat))
        ([] : List Nat) [[1]] = (.error 6, Context.mk 0 0, [[1]]) :=
  make_map_error_keeps_staged (Context.mk (0 : Nat) 0) [[1]] []
    (fun _ _ => (.error 5 : Except Nat Nat)) (fun _ _ => (.error 6 : Except Nat Nat))
    5 6 rfl rfl

/-- Claim C8: `pluginize p`, applied to a fixed argument list `xs`, yields a
plugin that for every receiver `r` and every call-time argument list `ys`
ignores `ys` and returns exactly the result of invoking `p` with receiver `r`
and arguments `xs`. -/
theorem pluginize_ignores_call_args (p : IPlugin α υ ε ρ) (xs : List υ)
    (r : α) (ys : List υ) :
    pluginize p xs r ys = p r xs :=
  rfl

/-- Claim C9: `tasks`/`make`/`map` clear the staged arguments by installing a
fresh array rather than emptying the old one in place: after a normal return
the wrapper's staged reference differs from the previously installed one `a`
(here installed via `useArray`, spec: `setStaged`), and the store still holds
the former elements behind `a` — so any alias of that array, e.g. one leaked to
a scope plugin, still reads its old content. -/
theorem clearing_installs_fresh_array (c : Context α) (s : Store υ) (a : Ref)
    (ha : a < s.length)
    (plugins : List (IPlugin α υ ε Unit)) (p : IPlugin α υ ε ρ)
    (q : IPlugin α υ ε β) (use : List υ) (v : ρ) (w : β)
    (hplugins : ∀ r ∈ plugins, r c._context (readArr s a) = .ok ())
    (hp : p c._context (resolveArgs (c.useArray a) use s) = .ok v)
    (hq : q c._context (resolveArgs (c.useArray a) use s) = .ok w) :
    (((c.useArray a).tasks plugins s).2.1._use ≠ a ∧
       readArr (((c.useArray a).tasks plugins s).2.2) a = readArr s a) ∧
    (((c.useArray a).make p use s).2.1._use ≠ a ∧
       readArr (((c.useArray a).make p use s).2.2) a = readArr s a) ∧
    (((c.useArray a).map q use s).2.1._use ≠ a ∧
       readArr (((c.useArray a).map q use s).2.2) a = readArr s a) := by
  simp only [Context.useArray] at hp hq ⊢
  have hloop := tasksLoop_ok c._context (readArr s a) plugins hplugins
  have ht : (Context.mk c._context a).tasks plugins s
      = (.ok (), Context.mk c._context s.length, s ++ [[]]) := by
    simp [Context.tasks, hloop, alloc]
  have hm : (Context.mk c._context a).make p use s
      = (.ok v, Context.mk c._context s.length, s ++ [[]]) := by
    simp [Context.make, hp, alloc]
  have hmp : (Context.mk c._context a).map q use s
      = (.ok (Context.mk w s.length), Context.mk c._context (s.length + 1),
         s ++ [[], []]) := by
    simp [Context.map, hq, Context.new, alloc]
  refine ⟨⟨?_, ?_⟩, ⟨?_, ?_⟩, ⟨?_, ?_⟩⟩
  · rw [ht]; exact ne_of_gt ha
  · rw [ht]; exact readArr_append_of_lt s [[]] a ha
  · rw [hm]; exact ne_of_gt ha
  · rw [hm]; exact readArr_append_of_lt s [[]] a ha
  · rw [hmp]; exact ne_of_gt (Nat.lt_succ_of_lt ha)
  · rw [hmp]; exact readArr_append_of_lt s [[], []] a ha

/-- Witness for claim C9's theorem: an array `[1, 2]` installed via `useArray`
keeps its elements after the clearing operations. -/
theorem clearing_installs_fresh_array_witness :
    (((Context.mk (0 : Nat) 9).useArray 0).tasks
        [fun _ _ => (.ok () : Except Unit Unit)] [[1, 2]]).2.1._use ≠ 0 :=
  (clearing_installs_fresh_array (Context.mk (0 : Nat) 9) [[1, 2]] 0 (by decide)
    [fun _ _ => (.ok () : Except Unit Unit)]
    (fun _ _ => (.ok 0 : Except Unit Nat)) (fun _ _ => (.ok 0 : Except Unit Nat))
    [] 0 0
    (fun r hr => by rw [List.mem_singleton] at hr; subst hr; rfl) rfl rfl).1.1

/-- Claim C10: a freshly constructed wrapper (`new Context(v)`, spec:
`create(v)`) reads back exactly `v` and has an empty staged-argument array. -/
theorem new_wrapper_read_and_empty_staged (v : α) (s : Store υ) :
    ((Context.new v s).1).context = v ∧
    readArr (Context.new v s).2 ((Context.new v s).1)._use = [] := by
  constructor
  · rfl
  · exact readArr_alloc_self s []

end ContextTs
